import Mathlib

/-
Verification of the downwind hydrofoil simulator's physics and race core.
The definitions below are a shallow embedding of the functions in
src/main.ts: the wave field, the surface solver, the wing sampler, the
per-frame physics step (updatePhysics) and the race tracker (updateRace).
Real-number fields model the JS doubles; the race tracker is embedded over
the rationals (it only uses ring operations, comparisons and floor), so
its behaviour on concrete inputs is decidable.
-/

namespace DW

noncomputable section

/-- 2-component vector (THREE.Vector2). -/
structure Vec2 where
  x : ℝ
  y : ℝ

/-- 3-component vector (THREE.Vector3). -/
structure Vec3 where
  x : ℝ
  y : ℝ
  z : ℝ

instance : Add Vec3 := ⟨fun a b => ⟨a.x + b.x, a.y + b.y, a.z + b.z⟩⟩

instance : SMul ℝ Vec3 := ⟨fun c v => ⟨c * v.x, c * v.y, c * v.z⟩⟩

@[simp] theorem Vec3.add_x (a b : Vec3) : (a + b).x = a.x + b.x := rfl

@[simp] theorem Vec3.add_y (a b : Vec3) : (a + b).y = a.y + b.y := rfl

@[simp] theorem Vec3.add_z (a b : Vec3) : (a + b).z = a.z + b.z := rfl

@[simp] theorem Vec3.smul_x (c : ℝ) (v : Vec3) : (c • v).x = c * v.x := rfl

@[simp] theorem Vec3.smul_y (c : ℝ) (v : Vec3) : (c • v).y = c * v.y := rfl

@[simp] theorem Vec3.smul_z (c : ℝ) (v : Vec3) : (c • v).z = c * v.z := rfl

/-- Dot product (THREE.Vector3.dot). -/
def Vec3.dot (a b : Vec3) : ℝ := a.x * b.x + a.y * b.y + a.z * b.z

/-- Euclidean length (THREE.Vector3.length). -/
def Vec3.length (v : Vec3) : ℝ := Real.sqrt (v.x * v.x + v.y * v.y + v.z * v.z)

/-- Cross product (THREE.Vector3.crossVectors). -/
def Vec3.cross (a b : Vec3) : Vec3 :=
  ⟨a.y * b.z - a.z * b.y, a.z * b.x - a.x * b.z, a.x * b.y - a.y * b.x⟩

/-- Normalization (THREE.Vector3.normalize): divide by the length. -/
def Vec3.normalize (v : Vec3) : Vec3 := (1 / v.length) • v

/-- smoothstep from main.ts: clamp the linear ramp, then the cubic ease. -/
def smoothstep (edge0 edge1 x : ℝ) : ℝ :=
  let t := max 0 (min 1 ((x - edge0) / (edge1 - edge0)))
  t * t * (3 - 2 * t)

/-- THREE.MathUtils.clamp value lo hi. -/
def clamp (value lo hi : ℝ) : ℝ := max lo (min hi value)

/-- headingToDir from main.ts: heading 0 points along +Z. -/
def headingToDir (heading : ℝ) : Vec3 := ⟨Real.sin heading, 0, Real.cos heading⟩

/-- One Gerstner wave component of the fixed 4-entry configuration. -/
structure WaveComponent where
  dir : Vec2
  steepness : ℝ
  wavelength : ℝ
  speed : ℝ

/-- waveConfig from main.ts: the 4 downwind wave components. -/
def waveConfig : List WaveComponent :=
  [⟨⟨0.2, 0.9⟩, 0.15, 40.0, 1.2⟩,
   ⟨⟨-0.1, 0.95⟩, 0.1, 25.0, 1.1⟩,
   ⟨⟨0.3, 0.8⟩, 0.08, 15.0, 1.3⟩,
   ⟨⟨-0.2, 0.9⟩, 0.05, 8.0, 1.5⟩]

/-- Result of a wave-field sample: displaced position and surface normal. -/
structure SurfInfo where
  position : Vec3
  normal : Vec3

/-- Loop body of getWaterDisplacement: accumulate one wave component into
the displaced point, tangent and binormal. -/
def gerstnerAccum (x z time windSpeed : ℝ) (acc : Vec3 × Vec3 × Vec3)
    (w : WaveComponent) : Vec3 × Vec3 × Vec3 :=
  let p := acc.1
  let tangent := acc.2.1
  let binormal := acc.2.2
  let k := 2.0 * Real.pi / w.wavelength
  let c := Real.sqrt (9.8 / k) * w.speed * windSpeed
  let d := w.dir.x * x + w.dir.y * z
  let f := k * (d - c * time)
  let eSteep := w.steepness * windSpeed * windSpeed
  let a := eSteep / k
  (⟨p.x + w.dir.x * a * Real.cos f,
    p.y + a * Real.sin f,
    p.z + w.dir.y * a * Real.cos f⟩,
   ⟨tangent.x - w.dir.x * w.dir.x * eSteep * Real.sin f,
    tangent.y + w.dir.x * eSteep * Real.cos f,
    tangent.z - w.dir.x * w.dir.y * eSteep * Real.sin f⟩,
   ⟨binormal.x - w.dir.x * w.dir.y * eSteep * Real.sin f,
    binormal.y + w.dir.y * eSteep * Real.cos f,
    binormal.z - w.dir.y * w.dir.y * eSteep * Real.sin f⟩)

/-- getWaterDisplacement from main.ts: sum of the 4 Gerstner terms starting
from (x, 0, z), tangent (1,0,0), binormal (0,0,1); the normal is the
normalized cross product of binormal and tangent. -/
def getWaterDisplacement (x z time windSpeed : ℝ) : SurfInfo :=
  let res := waveConfig.foldl (gerstnerAccum x z time windSpeed)
    (⟨x, 0, z⟩, ⟨1, 0, 0⟩, ⟨0, 0, 1⟩)
  ⟨res.1, Vec3.normalize (Vec3.cross res.2.2 res.2.1)⟩

/-- getWaterHeightFast from main.ts: vertical term only. -/
def getWaterHeightFast (x z time windSpeed : ℝ) : ℝ :=
  waveConfig.foldl (fun y w =>
    let k := 2.0 * Real.pi / w.wavelength
    let c := Real.sqrt (9.8 / k) * w.speed * windSpeed
    let d := w.dir.x * x + w.dir.y * z
    let f := k * (d - c * time)
    let eSteep := w.steepness * windSpeed * windSpeed
    y + (eSteep / k) * Real.sin f) 0

/-- One vertical Gerstner term as the spec states it:
(steepness * windSpeed^2 / k) * sin (k * (d - c*t)) with k = 2*pi/lambda
and c = sqrt (9.8/k) * speedMultiplier * windSpeed. -/
def gerstnerHeightTerm (x z time windSpeed : ℝ) (w : WaveComponent) : ℝ :=
  let k := 2.0 * Real.pi / w.wavelength
  let c := Real.sqrt (9.8 / k) * w.speed * windSpeed
  let d := w.dir.x * x + w.dir.y * z
  (w.steepness * windSpeed ^ 2 / k) * Real.sin (k * (d - c * time))

/-- The spec-side height formula: sum of the 4 vertical terms. -/
def gerstnerHeightSum (x z time windSpeed : ℝ) : ℝ :=
  (waveConfig.map (gerstnerHeightTerm x z time windSpeed)).sum

/-- Loop state of the surface solver: current test point and the wave
sample taken there. -/
structure SolveState where
  testX : ℝ
  testZ : ℝ
  info : SurfInfo

/-- Loop body of getSurfaceInfoAtWorldPos: shift the test point by the
residual against the world target, then re-evaluate the wave field. -/
def solveBody (worldX worldZ time windSpeed : ℝ) (st : SolveState) : SolveState :=
  let tx := st.testX + (worldX - st.info.position.x)
  let tz := st.testZ + (worldZ - st.info.position.z)
  ⟨tx, tz, getWaterDisplacement tx tz time windSpeed⟩

/-- getSurfaceInfoAtWorldPos from main.ts: evaluate at the world point,
then run the correction body a fixed 3 times, returning the final sample. -/
def getSurfaceInfoAtWorldPos (worldX worldZ time windSpeed : ℝ) : SurfInfo :=
  ((solveBody worldX worldZ time windSpeed)^[3]
    ⟨worldX, worldZ, getWaterDisplacement worldX worldZ time windSpeed⟩).info

/-- The pure test-point recurrence: one residual shift of the candidate
pre-image point, evaluating the wave field once at the current point. -/
def solveShift (worldX worldZ time windSpeed : ℝ) (p : ℝ × ℝ) : ℝ × ℝ :=
  (p.1 + (worldX - (getWaterDisplacement p.1 p.2 time windSpeed).position.x),
   p.2 + (worldZ - (getWaterDisplacement p.1 p.2 time windSpeed).position.z))

/-- The loop-carried solver state stays in sync with the pure test-point
recurrence: after n body iterations the stored sample is the wave field
evaluated at the n-th shifted point. -/
theorem solveBody_iterate (wx wz time ws : ℝ) (n : ℕ) (p : ℝ × ℝ) :
    (solveBody wx wz time ws)^[n]
      ⟨p.1, p.2, getWaterDisplacement p.1 p.2 time ws⟩ =
    ⟨((solveShift wx wz time ws)^[n] p).1,
     ((solveShift wx wz time ws)^[n] p).2,
     getWaterDisplacement ((solveShift wx wz time ws)^[n] p).1
       ((solveShift wx wz time ws)^[n] p).2 time ws⟩ := by
  induction n with
  | zero => rfl
  | succ n ih =>
    rw [Function.iterate_succ_apply', Function.iterate_succ_apply', ih]
    rfl

/-- C7: the surface solver starts its test point at (worldX, worldZ),
evaluates the wave displacement there, then exactly 3 more times shifts
the test point by the residual worldTarget minus displacedXZ and
re-evaluates; it returns the wave sample (displaced position and normal)
of the final, fourth evaluation. The iteration count is the fixed
constant 3 and there is no convergence test: the result is exactly the
wave field evaluated at the third shifted point. -/
theorem getSurfaceInfoAtWorldPos_four_evals (wx wz time ws : ℝ) :
    getSurfaceInfoAtWorldPos wx wz time ws =
    getWaterDisplacement ((solveShift wx wz time ws)^[3] (wx, wz)).1
      ((solveShift wx wz time ws)^[3] (wx, wz)).2 time ws := by
  have h := solveBody_iterate wx wz time ws 3 (wx, wz)
  unfold getSurfaceInfoAtWorldPos
  rw [h]

/-- C9: the cheap height function returns exactly the y-component of the
full displacement sample, and both equal the sum over the 4 wave
components of (steepness * windSpeed^2 / k) * sin (k * (d.(x,z) - c*t))
with k = 2*pi/wavelength and c = sqrt (9.8/k) * speedMultiplier *
windSpeed. -/
theorem getWaterHeightFast_eq_displacement_y (x z time ws : ℝ) :
    getWaterHeightFast x z time ws =
      (getWaterDisplacement x z time ws).position.y ∧
    getWaterHeightFast x z time ws = gerstnerHeightSum x z time ws := by
  constructor
  · rfl
  · simp only [getWaterHeightFast, gerstnerHeightSum, gerstnerHeightTerm,
      waveConfig, List.foldl, List.map, List.sum_cons, List.sum_nil]
    ring

/-- sampleWaveAtFoilPoints from main.ts, with the rider fields it reads
(heading, position x/z) and the active foil's wingSpan passed explicitly. -/
structure WaveSample where
  center : SurfInfo
  leftTip : SurfInfo
  rightTip : SurfInfo
  gradient : Vec2

/-- Multi-point wave sampling across the wing span: center and both tips,
plus the floored small-slope gradient from the center normal. -/
def sampleWaveAtFoilPoints (time windSpeed heading cx cz wingSpan : ℝ) : WaveSample :=
  let dir := headingToDir heading
  let right : Vec3 := ⟨dir.z, 0, -dir.x⟩
  let halfSpan := wingSpan / 2
  let center := getSurfaceInfoAtWorldPos cx cz time windSpeed
  let leftTip := getSurfaceInfoAtWorldPos (cx - right.x * halfSpan)
    (cz - right.z * halfSpan) time windSpeed
  let rightTip := getSurfaceInfoAtWorldPos (cx + right.x * halfSpan)
    (cz + right.z * halfSpan) time windSpeed
  let ny := max center.normal.y 0.01
  ⟨center, leftTip, rightTip, ⟨-center.normal.x / ny, -center.normal.z / ny⟩⟩

/-- Physics constants from main.ts. -/
def GRAVITY : ℝ := 9.81

def RHO_WATER : ℝ := 1025

def RIDER_MASS : ℝ := 80

def MAST_LENGTH : ℝ := 0.8

def MAST_DRAG_AREA : ℝ := 0.0015

def PUMP_IMPULSE : ℝ := 2.5

def PUMP_COST : ℝ := 20

def PUMP_COOLDOWN : ℝ := 0.35

def ENERGY_REGEN : ℝ := 5

def MAX_ROLL : ℝ := Real.pi / 6

def MAX_PITCH : ℝ := Real.pi / 36

def ROLL_SPRING : ℝ := 6.0

def ROLL_DAMPING : ℝ := 3.0

def WAVE_TORQUE_GAIN : ℝ := 2.0

def HEIGHT_SPRING : ℝ := 8.0

def HEIGHT_DAMPING : ℝ := 8.0

def WAVE_ENERGY_MULT : ℝ := 2.5

def LATERAL_RESISTANCE : ℝ := 1.0

/-- FoilConfig from main.ts (the name string is omitted: it is display
glue and no physics reads it). -/
structure FoilConfig where
  wingSpan : ℝ
  wingArea : ℝ
  chord : ℝ
  aspectRatio : ℝ
  stallSpeed : ℝ
  maxLiftCoeff : ℝ
  baseDragCoeff : ℝ
  turnRateMax : ℝ

/-- The High Aspect Race preset. -/
def highAspectRace : FoilConfig := ⟨1.0, 0.08, 0.08, 12.5, 7.0, 0.5, 0.01, 2⟩

/-- The Mid Aspect Cruise preset. -/
def midAspectCruise : FoilConfig := ⟨1.2, 0.234, 0.195, 6.15, 4.0, 0.5, 0.012, 0.6⟩

/-- foilState from main.ts: the mutable rider state. -/
structure FoilState where
  position : Vec3
  velocity : Vec3
  heading : ℝ
  pitch : ℝ
  roll : ℝ
  rollRate : ℝ
  rideHeight : ℝ
  rideHeightVel : ℝ
  onFoil : Bool
  energy : ℝ
  speed : ℝ
  lastPumpTime : ℝ
  distanceTravelled : ℝ

/-- The game state machine. -/
inductive GameState where
  | starting
  | riding
  | crashed
deriving DecidableEq

/-- Held/edge input flags read by updatePhysics. -/
structure Input where
  left : Bool
  right : Bool
  up : Bool
  down : Bool
  pump : Bool

/-- Values carried between the phases of the physics step: the state after
attitude and turning updates, the accumulated horizontal force, the lift
magnitude (reused by the ride-height target) and the clamped dt. -/
structure StepCtx where
  s : FoilState
  force : Vec3
  liftMag : ℝ
  dt : ℝ

/-- First phase of updatePhysics (main.ts lines 1567-1634): clamp dt,
record speed, pick roll/pitch targets (a later assignment in the source
lets right override left and down override up), sample the wave, run the
roll spring-damper with wave torque and clamp roll, ease pitch, compute
lift and drag magnitudes, accumulate wave-slope propulsion and drag into
the force, and apply roll-driven turning to the heading. -/
def stepPre (dt time windSpeed : ℝ) (foil : FoilConfig) (inp : Input)
    (s : FoilState) : StepCtx :=
  let dt := min dt (1 / 30)
  let speed := s.velocity.length
  let targetRoll := if inp.right then -MAX_ROLL else if inp.left then MAX_ROLL else 0
  let targetPitch := if inp.down then -MAX_PITCH else if inp.up then MAX_PITCH else 0
  let wave := sampleWaveAtFoilPoints time windSpeed s.heading s.position.x
    s.position.z foil.wingSpan
  let heightDiff := wave.rightTip.position.y - wave.leftTip.position.y
  let waveTorque := heightDiff / foil.wingSpan * WAVE_TORQUE_GAIN
  let rollError := targetRoll - s.roll
  let rollAccel := rollError * ROLL_SPRING - s.rollRate * ROLL_DAMPING + waveTorque
  let rollRate := s.rollRate + rollAccel * dt
  let roll := clamp (s.roll + rollRate * dt) (-MAX_ROLL * 1.2) (MAX_ROLL * 1.2)
  let pitch := s.pitch + (targetPitch - s.pitch) * 5.0 * dt
  let clFactor := smoothstep (foil.stallSpeed * 0.7) (foil.stallSpeed * 1.3) speed
  let CL := foil.maxLiftCoeff * clFactor
  let liftMag := 0.5 * RHO_WATER * speed * speed * CL * foil.wingArea
  let inducedCD := CL * CL / (Real.pi * foil.aspectRatio * 0.85)
  let totalCD := foil.baseDragCoeff + inducedCD
  let dragMag := 0.5 * RHO_WATER * speed * speed * totalCD * foil.wingArea
    + 0.5 * RHO_WATER * speed * speed * 0.8 * MAST_DRAG_AREA
    + (if s.rideHeight < 0.1 then
        (1.0 - s.rideHeight / 0.1) * (0.5 * RHO_WATER * speed * speed * 0.3 * 0.05)
      else 0)
  let force : Vec3 := ⟨RIDER_MASS * GRAVITY * (-wave.gradient.x) * WAVE_ENERGY_MULT, 0,
    RIDER_MASS * GRAVITY * (-wave.gradient.y) * WAVE_ENERGY_MULT⟩
  let force := if 0.01 < speed then force + (-dragMag) • s.velocity.normalize else force
  let heading := if 0.01 < |roll| ∧ 1.0 < speed then
      s.heading + clamp (liftMag * Real.sin roll / (RIDER_MASS * max speed 2.0))
        (-foil.turnRateMax) foil.turnRateMax * dt
    else s.heading
  ⟨{ s with
      speed := speed
      roll := roll
      rollRate := rollRate
      pitch := pitch
      heading := heading }, force, liftMag, dt⟩

/-- Output of the pump phase: the state, the consumed pump intent, and the
pump-animation side-effect signal. -/
structure PumpOut where
  s : FoilState
  intent : Bool
  fired : Bool

/-- Pump phase of updatePhysics (main.ts lines 1636-1646): fire when the
intent is set, energy covers the cost and the cooldown has elapsed; the
intent is cleared afterwards in every case. -/
def stepPump (time : ℝ) (pump : Bool) (s : FoilState) : PumpOut :=
  if pump = true ∧ PUMP_COST ≤ s.energy ∧ PUMP_COOLDOWN < time - s.lastPumpTime then
    ⟨{ s with
        velocity := s.velocity + PUMP_IMPULSE • headingToDir s.heading
        energy := s.energy - PUMP_COST
        lastPumpTime := time
        rideHeight := min (s.rideHeight + 0.05) MAST_LENGTH }, false, true⟩
  else ⟨s, false, false⟩

/-- Integration phase of updatePhysics (main.ts lines 1648-1687): energy
regeneration, semi-implicit Euler velocity update with the vertical
component forced to zero, lateral slip decay, position and path-length
integration, the ride-height spring-damper toward the lift-based target
with the minimum-height floor and mast-length cap, and the final speed
recomputation. -/
def stepIntegrate (dt : ℝ) (force : Vec3) (liftMag : ℝ) (s : FoilState) : FoilState :=
  let energy := min 100 (s.energy + ENERGY_REGEN * dt)
  let accel := (1 / RIDER_MASS) • force
  let v0 := s.velocity + dt • accel
  let v1 : Vec3 := ⟨v0.x, 0, v0.z⟩
  let dir := headingToDir s.heading
  let fwdSpeed := v1.dot dir
  let lateral := (v1 + (-fwdSpeed) • dir)
  let lateral := Real.exp (-LATERAL_RESISTANCE * dt) • lateral
  let v := fwdSpeed • dir + lateral
  let position := s.position + dt • v
  let distanceTravelled := s.distanceTravelled + s.speed * dt
  let liftRatio := liftMag / (RIDER_MASS * GRAVITY)
  let targetHeight := clamp ((liftRatio - 0.8) / 1.2 * MAST_LENGTH * 0.8) 0 MAST_LENGTH
  let pitchBias := s.pitch * 0.3
  let effectiveTarget := clamp (targetHeight + pitchBias) 0 MAST_LENGTH
  let heightError := effectiveTarget - s.rideHeight
  let heightAccel := heightError * HEIGHT_SPRING - s.rideHeightVel * HEIGHT_DAMPING
  let rideHeightVel := s.rideHeightVel + heightAccel * dt
  let rideHeight := s.rideHeight + rideHeightVel * dt
  let minRideHeight := if 1.0 < liftRatio then 0.12 else 0
  let rideHeight := max minRideHeight (min MAST_LENGTH rideHeight)
  { s with
      energy := energy
      velocity := v
      position := position
      distanceTravelled := distanceTravelled
      rideHeightVel := rideHeightVel
      rideHeight := rideHeight
      speed := v.length }

/-- Crash check at the end of the riding step (main.ts lines 1689-1701):
hard floor first, then the low-and-slow stall branch; otherwise the state
and game state pass through unchanged. -/
def applyCrashCheck (stallSpeed : ℝ) (s : FoilState) (gs : GameState) :
    FoilState × GameState :=
  if s.rideHeight ≤ 0.001 then
    ({ s with rideHeight := 0, onFoil := false }, GameState.crashed)
  else if s.rideHeight < 0.05 ∧ s.speed < stallSpeed then
    ({ s with rideHeight := 0, onFoil := false }, GameState.crashed)
  else (s, gs)

/-- Result of one updatePhysics call: the new rider state and game state,
the remaining pump intent, and the pump-animation event flag. -/
structure StepOut where
  state : FoilState
  game : GameState
  pumpIntent : Bool
  pumpFired : Bool

/-- updatePhysics from main.ts: an immediate no-op unless the game state
is riding, otherwise the attitude/force phase, the pump phase, the
integration phase and the crash check, in source order. -/
def updatePhysics (dt time windSpeed : ℝ) (foil : FoilConfig) (inp : Input)
    (s : FoilState) (gs : GameState) : StepOut :=
  if gs = GameState.riding then
    let c := stepPre dt time windSpeed foil inp s
    let p := stepPump time inp.pump c.s
    let m := stepIntegrate c.dt c.force c.liftMag p.s
    let out := applyCrashCheck foil.stallSpeed m gs
    ⟨out.1, out.2, p.intent, p.fired⟩
  else ⟨s, gs, inp.pump, false⟩

/-- n repeated updatePhysics calls with fixed per-call parameters,
threading rider state and game state. -/
def stepIter (dt time windSpeed : ℝ) (foil : FoilConfig) (inp : Input) :
    ℕ → FoilState × GameState → FoilState × GameState
  | 0, p => p
  | n + 1, p =>
    let o := updatePhysics dt time windSpeed foil inp p.1 p.2
    stepIter dt time windSpeed foil inp n (o.state, o.game)

/-- Initial rider state from main.ts (spawn at (0, 0, -800)). -/
def foilStateInit : FoilState :=
  ⟨⟨0, 0, -800⟩, ⟨0, 0, 0⟩, 0, 0, 0, 0, 0.35, 0, true, 100, 0, -10, 0⟩

theorem stepPre_energy (dt time ws : ℝ) (foil : FoilConfig) (inp : Input)
    (s : FoilState) : (stepPre dt time ws foil inp s).s.energy = s.energy := rfl

theorem stepPre_lastPumpTime (dt time ws : ℝ) (foil : FoilConfig) (inp : Input)
    (s : FoilState) : (stepPre dt time ws foil inp s).s.lastPumpTime = s.lastPumpTime := rfl

theorem stepPre_velocity (dt time ws : ℝ) (foil : FoilConfig) (inp : Input)
    (s : FoilState) : (stepPre dt time ws foil inp s).s.velocity = s.velocity := rfl

theorem stepPre_rideHeight (dt time ws : ℝ) (foil : FoilConfig) (inp : Input)
    (s : FoilState) : (stepPre dt time ws foil inp s).s.rideHeight = s.rideHeight := rfl

theorem stepPre_position (dt time ws : ℝ) (foil : FoilConfig) (inp : Input)
    (s : FoilState) : (stepPre dt time ws foil inp s).s.position = s.position := rfl

theorem stepPre_onFoil (dt time ws : ℝ) (foil : FoilConfig) (inp : Input)
    (s : FoilState) : (stepPre dt time ws foil inp s).s.onFoil = s.onFoil := rfl

theorem stepPre_dt (dt time ws : ℝ) (foil : FoilConfig) (inp : Input)
    (s : FoilState) : (stepPre dt time ws foil inp s).dt = min dt (1 / 30) := rfl

theorem stepPump_intent (time : ℝ) (pump : Bool) (s : FoilState) :
    (stepPump time pump s).intent = false := by
  unfold stepPump; split <;> rfl

theorem stepPump_onFoil (time : ℝ) (pump : Bool) (s : FoilState) :
    (stepPump time pump s).s.onFoil = s.onFoil := by
  unfold stepPump; split <;> rfl

theorem stepPump_position (time : ℝ) (pump : Bool) (s : FoilState) :
    (stepPump time pump s).s.position = s.position := by
  unfold stepPump; split <;> rfl

theorem stepPump_heading (time : ℝ) (pump : Bool) (s : FoilState) :
    (stepPump time pump s).s.heading = s.heading := by
  unfold stepPump; split <;> rfl

theorem stepPump_speed (time : ℝ) (pump : Bool) (s : FoilState) :
    (stepPump time pump s).s.speed = s.speed := by
  unfold stepPump; split <;> rfl

/-- The pump either leaves energy alone or (having checked the cost is
covered) subtracts exactly the cost. -/
theorem stepPump_energy_cases (time : ℝ) (pump : Bool) (s : FoilState) :
    (stepPump time pump s).s.energy = s.energy ∨
    (PUMP_COST ≤ s.energy ∧ (stepPump time pump s).s.energy = s.energy - PUMP_COST) := by
  unfold stepPump
  split
  · next h => exact Or.inr ⟨h.2.1, rfl⟩
  · exact Or.inl rfl

/-- The pump either leaves rideHeight alone or writes the capped bump. -/
theorem stepPump_rideHeight_cases (time : ℝ) (pump : Bool) (s : FoilState) :
    (stepPump time pump s).s.rideHeight = s.rideHeight ∨
    (stepPump time pump s).s.rideHeight = min (s.rideHeight + 0.05) MAST_LENGTH := by
  unfold stepPump
  split
  · exact Or.inr rfl
  · exact Or.inl rfl

theorem stepIntegrate_onFoil (dt : ℝ) (force : Vec3) (liftMag : ℝ) (s : FoilState) :
    (stepIntegrate dt force liftMag s).onFoil = s.onFoil := rfl

theorem stepIntegrate_energy (dt : ℝ) (force : Vec3) (liftMag : ℝ) (s : FoilState) :
    (stepIntegrate dt force liftMag s).energy = min 100 (s.energy + ENERGY_REGEN * dt) := rfl

/-- The vertical velocity component is forced to zero by the integration
phase: the decomposition along the horizontal heading direction keeps it
at the zero written right after the Euler update. -/
theorem stepIntegrate_velocity_y (dt : ℝ) (force : Vec3) (liftMag : ℝ) (s : FoilState) :
    (stepIntegrate dt force liftMag s).velocity.y = 0 := by
  simp [stepIntegrate, headingToDir]

/-- Position is integrated from a velocity whose y-component is zero, so
its y-component never moves. -/
theorem stepIntegrate_position_y (dt : ℝ) (force : Vec3) (liftMag : ℝ) (s : FoilState) :
    (stepIntegrate dt force liftMag s).position.y = s.position.y := by
  simp [stepIntegrate, headingToDir]

/-- The clamp at the end of the ride-height spring keeps rideHeight inside
[0, MAST_LENGTH] whatever the unclamped spring produced. -/
theorem stepIntegrate_rideHeight_bounds (dt : ℝ) (force : Vec3) (liftMag : ℝ)
    (s : FoilState) : 0 ≤ (stepIntegrate dt force liftMag s).rideHeight ∧
      (stepIntegrate dt force liftMag s).rideHeight ≤ MAST_LENGTH := by
  unfold stepIntegrate
  dsimp only
  constructor
  · apply le_max_of_le_left
    split <;> norm_num
  · apply max_le
    · split <;> norm_num [MAST_LENGTH]
    · exact min_le_left _ _

theorem applyCrashCheck_energy (stall : ℝ) (s : FoilState) (gs : GameState) :
    (applyCrashCheck stall s gs).1.energy = s.energy := by
  unfold applyCrashCheck
  split
  · rfl
  · split <;> rfl

theorem applyCrashCheck_position (stall : ℝ) (s : FoilState) (gs : GameState) :
    (applyCrashCheck stall s gs).1.position = s.position := by
  unfold applyCrashCheck
  split
  · rfl
  · split <;> rfl

theorem applyCrashCheck_velocity (stall : ℝ) (s : FoilState) (gs : GameState) :
    (applyCrashCheck stall s gs).1.velocity = s.velocity := by
  unfold applyCrashCheck
  split
  · rfl
  · split <;> rfl

/-- The crash check either zeroes the ride height or passes it through. -/
theorem applyCrashCheck_rideHeight_cases (stall : ℝ) (s : FoilState) (gs : GameState) :
    (applyCrashCheck stall s gs).1.rideHeight = 0 ∨
    (applyCrashCheck stall s gs).1.rideHeight = s.rideHeight := by
  unfold applyCrashCheck
  split
  · exact Or.inl rfl
  · split
    · exact Or.inl rfl
    · exact Or.inr rfl

/-- The pump fires exactly when the intent is set, the energy covers the
cost, and the cooldown has elapsed since the last pump. -/
theorem stepPump_fired_iff (time : ℝ) (pump : Bool) (s : FoilState) :
    (stepPump time pump s).fired = true ↔
    (pump = true ∧ PUMP_COST ≤ s.energy ∧ PUMP_COOLDOWN < time - s.lastPumpTime) := by
  unfold stepPump
  split
  · next hc => simpa using hc
  · next hc => simpa using hc

/-- When the pump fires it applies exactly the impulse along the heading,
the energy cost, the timestamp and the capped ride-height bump. -/
theorem stepPump_fired_s (time : ℝ) (pump : Bool) (s : FoilState)
    (h : (stepPump time pump s).fired = true) :
    (stepPump time pump s).s = { s with
      velocity := s.velocity + PUMP_IMPULSE • headingToDir s.heading
      energy := s.energy - PUMP_COST
      lastPumpTime := time
      rideHeight := min (s.rideHeight + 0.05) MAST_LENGTH } := by
  unfold stepPump at h ⊢
  split at h
  · next hc => rw [if_pos hc]
  · simp at h

/-- When the pump does not fire the state passes through untouched. -/
theorem stepPump_not_fired_s (time : ℝ) (pump : Bool) (s : FoilState)
    (h : (stepPump time pump s).fired = false) :
    (stepPump time pump s).s = s := by
  unfold stepPump at h ⊢
  split at h
  · simp at h
  · next hc => rw [if_neg hc]

/-- C1: calls to the physics step made while gameState is not riding (in
particular once it is crashed) leave the rider state and game state
completely unchanged and consume nothing, and therefore any number of
repeated step calls after a crash is an idempotent no-op until an
external restart resets the state. -/
theorem updatePhysics_noop_unless_riding (dt time ws : ℝ) (foil : FoilConfig)
    (inp : Input) (s : FoilState) (gs : GameState) (h : gs ≠ GameState.riding) :
    updatePhysics dt time ws foil inp s gs = ⟨s, gs, inp.pump, false⟩ ∧
    ∀ n : ℕ, stepIter dt time ws foil inp n (s, gs) = (s, gs) := by
  have h1 : updatePhysics dt time ws foil inp s gs = ⟨s, gs, inp.pump, false⟩ := by
    unfold updatePhysics
    rw [if_neg h]
  refine ⟨h1, fun n => ?_⟩
  induction n with
  | zero => rfl
  | succ n ih =>
    have h2 : stepIter dt time ws foil inp (n + 1) (s, gs) =
        stepIter dt time ws foil inp n
          ((updatePhysics dt time ws foil inp s gs).state,
           (updatePhysics dt time ws foil inp s gs).game) := rfl
    rw [h2, h1]
    exact ih

/-- Witness for C1: a crashed-state step at concrete inputs is a no-op,
and so are five repeated steps. -/
theorem updatePhysics_noop_unless_riding_witness :
    updatePhysics 0.016 1 1.18 highAspectRace ⟨false, false, false, false, true⟩
      foilStateInit GameState.crashed =
      ⟨foilStateInit, GameState.crashed, true, false⟩ ∧
    stepIter 0.016 1 1.18 highAspectRace ⟨false, false, false, false, true⟩ 5
      (foilStateInit, GameState.crashed) = (foilStateInit, GameState.crashed) := by
  have h := updatePhysics_noop_unless_riding 0.016 1 1.18 highAspectRace
    ⟨false, false, false, false, true⟩ foilStateInit GameState.crashed (by decide)
  exact ⟨h.1, h.2 5⟩

/-- C10: the physics step never changes the y-component of the rider
position (all vertical placement is carried by rideHeight alone), and a
riding step always leaves the vertical velocity component forced to 0. -/
theorem updatePhysics_position_y_invariant (dt time ws : ℝ) (foil : FoilConfig)
    (inp : Input) (s : FoilState) (gs : GameState) :
    (updatePhysics dt time ws foil inp s gs).state.position.y = s.position.y ∧
    (gs = GameState.riding →
      (updatePhysics dt time ws foil inp s gs).state.velocity.y = 0) := by
  by_cases hg : gs = GameState.riding
  · subst hg
    unfold updatePhysics
    rw [if_pos rfl]
    dsimp only
    constructor
    · rw [applyCrashCheck_position, stepIntegrate_position_y, stepPump_position,
        stepPre_position]
    · intro _
      rw [applyCrashCheck_velocity, stepIntegrate_velocity_y]
  · unfold updatePhysics
    rw [if_neg hg]
    exact ⟨rfl, fun h => absurd h hg⟩

/-- Witness for C10: a concrete riding step keeps position.y at its spawn
value 0 and ends with zero vertical velocity. -/
theorem updatePhysics_position_y_invariant_witness :
    (updatePhysics 0.016 1 1.18 highAspectRace ⟨false, false, false, false, false⟩
      foilStateInit GameState.riding).state.position.y = foilStateInit.position.y ∧
    (updatePhysics 0.016 1 1.18 highAspectRace ⟨false, false, false, false, false⟩
      foilStateInit GameState.riding).state.velocity.y = 0 := by
  have h := updatePhysics_position_y_invariant 0.016 1 1.18 highAspectRace
    ⟨false, false, false, false, false⟩ foilStateInit GameState.riding
  exact ⟨h.1, h.2 rfl⟩

/-- C2: at the end of every riding step the crash check runs in source
order on the integrated state m: if m.rideHeight ≤ 0.001 the ride height
is zeroed, onFoil cleared and the game state becomes crashed; otherwise
if m.rideHeight < 0.05 and the recomputed speed is below the profile's
stall speed the same transition fires; otherwise the state passes through
with the game state still riding and onFoil unchanged from entry. -/
theorem updatePhysics_crash_check_order (dt time ws : ℝ) (foil : FoilConfig)
    (inp : Input) (s : FoilState) (gs : GameState) (h : gs = GameState.riding) :
    let m := stepIntegrate (stepPre dt time ws foil inp s).dt
      (stepPre dt time ws foil inp s).force (stepPre dt time ws foil inp s).liftMag
      (stepPump time inp.pump (stepPre dt time ws foil inp s).s).s
    let out := updatePhysics dt time ws foil inp s gs
    (m.rideHeight ≤ 0.001 →
      out.state = { m with rideHeight := 0, onFoil := false } ∧
      out.game = GameState.crashed) ∧
    (0.001 < m.rideHeight → m.rideHeight < 0.05 → m.speed < foil.stallSpeed →
      out.state = { m with rideHeight := 0, onFoil := false } ∧
      out.game = GameState.crashed) ∧
    (0.001 < m.rideHeight → ¬(m.rideHeight < 0.05 ∧ m.speed < foil.stallSpeed) →
      out.state = m ∧ out.game = GameState.riding ∧ out.state.onFoil = s.onFoil) := by
  subst h
  unfold updatePhysics
  rw [if_pos rfl]
  dsimp only
  refine ⟨fun h1 => ?_, fun h1 h2 h3 => ?_, fun h1 h2 => ?_⟩
  · unfold applyCrashCheck
    rw [if_pos h1]
    exact ⟨rfl, rfl⟩
  · unfold applyCrashCheck
    rw [if_neg (not_le.mpr h1), if_pos ⟨h2, h3⟩]
    exact ⟨rfl, rfl⟩
  · unfold applyCrashCheck
    rw [if_neg (not_le.mpr h1), if_neg h2]
    refine ⟨rfl, rfl, ?_⟩
    rw [stepIntegrate_onFoil, stepPump_onFoil, stepPre_onFoil]

/-- Witness for C2: the integrated state of a concrete riding step from
spawn falls into one of the three crash-check branches with exactly the
claimed outcome. -/
theorem updatePhysics_crash_check_order_witness :
    let m := stepIntegrate (stepPre 0.016 1 1.18 highAspectRace
        ⟨false, false, false, false, false⟩ foilStateInit).dt
      (stepPre 0.016 1 1.18 highAspectRace
        ⟨false, false, false, false, false⟩ foilStateInit).force
      (stepPre 0.016 1 1.18 highAspectRace
        ⟨false, false, false, false, false⟩ foilStateInit).liftMag
      (stepPump 1 false (stepPre 0.016 1 1.18 highAspectRace
        ⟨false, false, false, false, false⟩ foilStateInit).s).s
    let out := updatePhysics 0.016 1 1.18 highAspectRace
      ⟨false, false, false, false, false⟩ foilStateInit GameState.riding
    (m.rideHeight ≤ 0.001 →
      out.state = { m with rideHeight := 0, onFoil := false } ∧
      out.game = GameState.crashed) ∧
    (0.001 < m.rideHeight → m.rideHeight < 0.05 → m.speed < highAspectRace.stallSpeed →
      out.state = { m with rideHeight := 0, onFoil := false } ∧
      out.game = GameState.crashed) ∧
    (0.001 < m.rideHeight → ¬(m.rideHeight < 0.05 ∧ m.speed < highAspectRace.stallSpeed) →
      out.state = m ∧ out.game = GameState.riding ∧
      out.state.onFoil = foilStateInit.onFoil) :=
  updatePhysics_crash_check_order 0.016 1 1.18 highAspectRace
    ⟨false, false, false, false, false⟩ foilStateInit GameState.riding rfl

/-- C3: in a riding step the pump fires exactly when the intent is set,
entry energy is at least the pump cost 20, and more than the 0.35 s
cooldown has passed since the last pump; firing adds exactly the 2.5 m/s
impulse along the (already turned) heading direction to the entry
velocity, subtracts 20 from the entry energy, stamps lastPumpTime with t
and bumps rideHeight by 0.05 capped at the mast length; a non-firing pump
phase changes nothing; and the pump intent is consumed by every riding
step either way. -/
theorem updatePhysics_pump_spec (dt time ws : ℝ) (foil : FoilConfig)
    (inp : Input) (s : FoilState) (gs : GameState) (h : gs = GameState.riding) :
    let A := stepPre dt time ws foil inp s
    let p := stepPump time inp.pump A.s
    let out := updatePhysics dt time ws foil inp s gs
    (out.pumpFired = true ↔
      inp.pump = true ∧ PUMP_COST ≤ s.energy ∧
        PUMP_COOLDOWN < time - s.lastPumpTime) ∧
    (out.pumpFired = true →
      p.s.velocity = s.velocity + PUMP_IMPULSE • headingToDir A.s.heading ∧
      p.s.energy = s.energy - PUMP_COST ∧
      p.s.lastPumpTime = time ∧
      p.s.rideHeight = min (s.rideHeight + 0.05) MAST_LENGTH) ∧
    (out.pumpFired = false → p.s = A.s) ∧
    out.pumpIntent = false := by
  subst h
  unfold updatePhysics
  rw [if_pos rfl]
  dsimp only
  have hfi := stepPump_fired_iff time inp.pump (stepPre dt time ws foil inp s).s
  rw [stepPre_energy, stepPre_lastPumpTime] at hfi
  refine ⟨hfi, fun hf => ?_, fun hf => stepPump_not_fired_s _ _ _ hf, stepPump_intent _ _ _⟩
  rw [stepPump_fired_s time inp.pump (stepPre dt time ws foil inp s).s hf]
  refine ⟨?_, ?_, rfl, ?_⟩
  · rw [stepPre_velocity]
  · rw [stepPre_energy]
  · rw [stepPre_rideHeight]

/-- Witness for C3: a concrete riding step from spawn with the pump intent
set satisfies the full pump contract; here energy 100 and lastPumpTime
-10 make the pump fire at t = 1. -/
theorem updatePhysics_pump_spec_witness :
    let A := stepPre 0.016 1 1.18 highAspectRace
      ⟨false, false, false, false, true⟩ foilStateInit
    let p := stepPump 1 true A.s
    let out := updatePhysics 0.016 1 1.18 highAspectRace
      ⟨false, false, false, false, true⟩ foilStateInit GameState.riding
    (out.pumpFired = true ↔
      true = true ∧ PUMP_COST ≤ foilStateInit.energy ∧
        PUMP_COOLDOWN < 1 - foilStateInit.lastPumpTime) ∧
    (out.pumpFired = true →
      p.s.velocity = foilStateInit.velocity + PUMP_IMPULSE • headingToDir A.s.heading ∧
      p.s.energy = foilStateInit.energy - PUMP_COST ∧
      p.s.lastPumpTime = 1 ∧
      p.s.rideHeight = min (foilStateInit.rideHeight + 0.05) MAST_LENGTH) ∧
    (out.pumpFired = false → p.s = A.s) ∧
    out.pumpIntent = false :=
  updatePhysics_pump_spec 0.016 1 1.18 highAspectRace
    ⟨false, false, false, false, true⟩ foilStateInit GameState.riding rfl

/-- C4: for any step with dt ≥ 0, energy in [0, 100] on entry stays in
[0, 100] on exit: the pump only subtracts its cost 20 after checking
energy ≥ 20, and regeneration is capped at 100 by the min; this holds for
every game state and hence across arbitrary sequences of pump attempts
and elapsed time. -/
theorem updatePhysics_energy_bounds (dt time ws : ℝ) (foil : FoilConfig)
    (inp : Input) (s : FoilState) (gs : GameState)
    (h0 : 0 ≤ s.energy) (h1 : s.energy ≤ 100) (hdt : 0 ≤ dt) :
    0 ≤ (updatePhysics dt time ws foil inp s gs).state.energy ∧
    (updatePhysics dt time ws foil inp s gs).state.energy ≤ 100 := by
  by_cases hg : gs = GameState.riding
  · subst hg
    unfold updatePhysics
    rw [if_pos rfl]
    dsimp only
    rw [applyCrashCheck_energy, stepIntegrate_energy, stepPre_dt]
    have hdtc : (0 : ℝ) ≤ min dt (1 / 30) := le_min hdt (by norm_num)
    have hp := stepPump_energy_cases time inp.pump (stepPre dt time ws foil inp s).s
    rw [stepPre_energy] at hp
    have hE : 0 ≤ (stepPump time inp.pump (stepPre dt time ws foil inp s).s).s.energy ∧
        (stepPump time inp.pump (stepPre dt time ws foil inp s).s).s.energy ≤ 100 := by
      rcases hp with hc | ⟨hcost, hc⟩
      · rw [hc]; exact ⟨h0, h1⟩
      · rw [hc]
        simp only [PUMP_COST] at hcost ⊢
        constructor <;> linarith
    constructor
    · exact le_min (by norm_num)
        (add_nonneg hE.1 (mul_nonneg (by norm_num [ENERGY_REGEN]) hdtc))
    · exact min_le_left _ _
  · unfold updatePhysics
    rw [if_neg hg]
    exact ⟨h0, h1⟩

/-- Witness for C4 at a concrete riding step from spawn with the pump
intent set and dt = 0.016. -/
theorem updatePhysics_energy_bounds_witness :
    0 ≤ (updatePhysics 0.016 1 1.18 highAspectRace ⟨false, false, false, false, true⟩
      foilStateInit GameState.riding).state.energy ∧
    (updatePhysics 0.016 1 1.18 highAspectRace ⟨false, false, false, false, true⟩
      foilStateInit GameState.riding).state.energy ≤ 100 :=
  updatePhysics_energy_bounds 0.016 1 1.18 highAspectRace
    ⟨false, false, false, false, true⟩ foilStateInit GameState.riding
    (by norm_num [foilStateInit]) (by norm_num [foilStateInit]) (by norm_num)

/-- C8: rideHeight stays within [0, MAST_LENGTH]: from an in-range entry
value the pump's capped bump stays in range, and the spring integration
followed by the clamp to [minRideHeight, MAST_LENGTH] (minRideHeight
being 0.12 when liftRatio > 1 and 0 otherwise) and the crash transitions
that zero the height all leave the final value in range too. -/
theorem updatePhysics_rideHeight_bounds (dt time ws : ℝ) (foil : FoilConfig)
    (inp : Input) (s : FoilState) (gs : GameState)
    (h0 : 0 ≤ s.rideHeight) (h1 : s.rideHeight ≤ MAST_LENGTH) :
    (0 ≤ (stepPump time inp.pump (stepPre dt time ws foil inp s).s).s.rideHeight ∧
     (stepPump time inp.pump (stepPre dt time ws foil inp s).s).s.rideHeight ≤
       MAST_LENGTH) ∧
    (0 ≤ (updatePhysics dt time ws foil inp s gs).state.rideHeight ∧
     (updatePhysics dt time ws foil inp s gs).state.rideHeight ≤ MAST_LENGTH) := by
  have hpump : 0 ≤ (stepPump time inp.pump (stepPre dt time ws foil inp s).s).s.rideHeight ∧
      (stepPump time inp.pump (stepPre dt time ws foil inp s).s).s.rideHeight ≤
        MAST_LENGTH := by
    have hp := stepPump_rideHeight_cases time inp.pump (stepPre dt time ws foil inp s).s
    rw [stepPre_rideHeight] at hp
    rcases hp with hc | hc <;> rw [hc]
    · exact ⟨h0, h1⟩
    · exact ⟨le_min (by linarith) (by norm_num [MAST_LENGTH]), min_le_right _ _⟩
  refine ⟨hpump, ?_⟩
  by_cases hg : gs = GameState.riding
  · subst hg
    unfold updatePhysics
    rw [if_pos rfl]
    dsimp only
    have hm := stepIntegrate_rideHeight_bounds (stepPre dt time ws foil inp s).dt
      (stepPre dt time ws foil inp s).force (stepPre dt time ws foil inp s).liftMag
      (stepPump time inp.pump (stepPre dt time ws foil inp s).s).s
    rcases applyCrashCheck_rideHeight_cases foil.stallSpeed
        (stepIntegrate (stepPre dt time ws foil inp s).dt
          (stepPre dt time ws foil inp s).force (stepPre dt time ws foil inp s).liftMag
          (stepPump time inp.pump (stepPre dt time ws foil inp s).s).s)
        GameState.riding with hc | hc <;> rw [hc]
    · exact ⟨le_refl 0, by norm_num [MAST_LENGTH]⟩
    · exact hm
  · unfold updatePhysics
    rw [if_neg hg]
    exact ⟨h0, h1⟩

/-- Witness for C8 at a concrete riding step from spawn (rideHeight 0.35,
mast length 0.8). -/
theorem updatePhysics_rideHeight_bounds_witness :
    (0 ≤ (stepPump 1 true (stepPre 0.016 1 1.18 highAspectRace
        ⟨false, false, false, false, true⟩ foilStateInit).s).s.rideHeight ∧
     (stepPump 1 true (stepPre 0.016 1 1.18 highAspectRace
        ⟨false, false, false, false, true⟩ foilStateInit).s).s.rideHeight ≤
       MAST_LENGTH) ∧
    (0 ≤ (updatePhysics 0.016 1 1.18 highAspectRace
        ⟨false, false, false, false, true⟩ foilStateInit
        GameState.riding).state.rideHeight ∧
     (updatePhysics 0.016 1 1.18 highAspectRace ⟨false, false, false, false, true⟩
        foilStateInit GameState.riding).state.rideHeight ≤ MAST_LENGTH) :=
  updatePhysics_rideHeight_bounds 0.016 1 1.18 highAspectRace
    ⟨false, false, false, false, true⟩ foilStateInit GameState.riding
    (by norm_num [foilStateInit]) (by norm_num [foilStateInit, MAST_LENGTH])

end

/-
Race tracker (updateRace and its state) embedded over the rationals: the
source only uses ring operations, comparisons and floor on these values,
so every concrete run is decidable. The cosmetic splitFlashText string is
omitted (it is display formatting only); the splitFlashTimer number is
kept.
-/

/-- RaceData from main.ts. -/
structure RaceData where
  active : Bool
  finished : Bool
  startTime : ℚ
  kmSplitTimes : List ℚ
  lastKmReached : ℤ
  totalElapsed : ℚ
  splitFlashTimer : ℚ
deriving DecidableEq

/-- RACE_START_Z from main.ts: the spawn z coordinate. -/
def RACE_START_Z : ℚ := -800

/-- RACE_LENGTH_KM from main.ts (marked adjustable in the source; the
race theorems are parametric in the course length L). -/
def RACE_LENGTH_KM : ℤ := 1

/-- downwindDist from main.ts, with the rider z passed explicitly. -/
def downwindDist (z : ℚ) : ℚ := max 0 (z - RACE_START_Z)

/-- The initial race state literal from main.ts (also what resetRace
restores). -/
def raceInit : RaceData := ⟨false, false, 0, [], 0, 0, 0⟩

/-- startRace from main.ts. -/
def startRace (t : ℚ) : RaceData := ⟨true, false, t, [], 0, 0, 0⟩

/-- One iteration of the split-recording loop: push the current elapsed
time, set the 3 s flash timer, and advance lastKmReached by one. -/
def pushSplit (r : RaceData) : RaceData :=
  { r with
      kmSplitTimes := r.kmSplitTimes ++ [r.totalElapsed]
      splitFlashTimer := 3
      lastKmReached := r.lastKmReached + 1 }

/-- The split-recording loop, run a fixed number of iterations. -/
def recordSplits : ℕ → RaceData → RaceData
  | 0, r => r
  | n + 1, r => recordSplits n (pushSplit r)

/-- The km index the rider has reached: floor(downwindDist / 1000). -/
def kmOf (z : ℚ) : ℤ := ⌊downwindDist z / 1000⌋

/-- Elapsed-time update phase of updateRace. -/
def raceElapsed (t : ℚ) (r : RaceData) : RaceData :=
  { r with totalElapsed := t - r.startTime }

/-- Split-recording phase of updateRace: run the loop from
lastKmReached + 1 up to min(kmReached, L). -/
def raceRecord (L : ℤ) (z : ℚ) (r : RaceData) : RaceData :=
  recordSplits (min (kmOf z) L - r.lastKmReached).toNat r

/-- Flash-decay phase of updateRace. -/
def raceFlash (dt : ℚ) (r : RaceData) : RaceData :=
  if 0 < r.splitFlashTimer then
    { r with splitFlashTimer := r.splitFlashTimer - dt }
  else r

/-- Finish-check phase of updateRace: on reaching the course distance,
freeze the race and backfill any missing km splits with the final
elapsed time. -/
def raceFinish (L : ℤ) (t z : ℚ) (r : RaceData) : RaceData :=
  if (L : ℚ) * 1000 ≤ downwindDist z then
    { r with
        finished := true
        active := false
        totalElapsed := t - r.startTime
        splitFlashTimer := 0
        kmSplitTimes := r.kmSplitTimes ++
          List.replicate (L.toNat - r.kmSplitTimes.length) (t - r.startTime) }
  else r

/-- Crash-abandon phase of updateRace. -/
def raceCrash (gs : GameState) (r : RaceData) : RaceData :=
  if gs = GameState.crashed then { r with active := false } else r

/-- updateRace from main.ts, parametric in the course length L: auto
start on riding, early return when inactive, then the elapsed update,
the split-recording loop, flash decay, the finish check with backfill,
and the crash abandon, in source order. -/
def updateRace (L : ℤ) (dt t z : ℚ) (gs : GameState) (r0 : RaceData) : RaceData :=
  let r1 := if gs = GameState.riding ∧ r0.active = false ∧ r0.finished = false
    then startRace t else r0
  if r1.active = false then r1
  else raceCrash gs (raceFinish L t z (raceFlash dt (raceRecord L z (raceElapsed t r1))))

/-- One frame of inputs fed to the race tracker. -/
structure Frame where
  dt : ℚ
  t : ℚ
  z : ℚ
  gs : GameState

/-- A sequence of race-tracker updates from the reset state. -/
def raceRun (L : ℤ) (frames : List Frame) : RaceData :=
  frames.foldl (fun r fr => updateRace L fr.dt fr.t fr.z fr.gs r) raceInit

theorem recordSplits_active (n : ℕ) (r : RaceData) :
    (recordSplits n r).active = r.active := by
  induction n generalizing r with
  | zero => rfl
  | succ n ih => rw [recordSplits, ih]; rfl

theorem recordSplits_finished (n : ℕ) (r : RaceData) :
    (recordSplits n r).finished = r.finished := by
  induction n generalizing r with
  | zero => rfl
  | succ n ih => rw [recordSplits, ih]; rfl

theorem recordSplits_startTime (n : ℕ) (r : RaceData) :
    (recordSplits n r).startTime = r.startTime := by
  induction n generalizing r with
  | zero => rfl
  | succ n ih => rw [recordSplits, ih]; rfl

theorem recordSplits_totalElapsed (n : ℕ) (r : RaceData) :
    (recordSplits n r).totalElapsed = r.totalElapsed := by
  induction n generalizing r with
  | zero => rfl
  | succ n ih => rw [recordSplits, ih]; rfl

theorem recordSplits_lastKmReached (n : ℕ) (r : RaceData) :
    (recordSplits n r).lastKmReached = r.lastKmReached + n := by
  induction n generalizing r with
  | zero => simp [recordSplits]
  | succ n ih =>
    rw [recordSplits, ih]
    show r.lastKmReached + 1 + n = r.lastKmReached + (n + 1)
    ring

theorem recordSplits_kmSplitTimes (n : ℕ) (r : RaceData) :
    (recordSplits n r).kmSplitTimes =
      r.kmSplitTimes ++ List.replicate n r.totalElapsed := by
  induction n generalizing r with
  | zero => simp [recordSplits]
  | succ n ih =>
    rw [recordSplits, ih]
    show (r.kmSplitTimes ++ [r.totalElapsed]) ++ List.replicate n r.totalElapsed =
      r.kmSplitTimes ++ List.replicate (n + 1) r.totalElapsed
    rw [List.append_assoc, List.replicate_succ]
    rfl

theorem raceElapsed_finished (t : ℚ) (r : RaceData) :
    (raceElapsed t r).finished = r.finished := rfl

theorem raceRecord_finished (L : ℤ) (z : ℚ) (r : RaceData) :
    (raceRecord L z r).finished = r.finished := recordSplits_finished _ _

theorem raceRecord_active (L : ℤ) (z : ℚ) (r : RaceData) :
    (raceRecord L z r).active = r.active := recordSplits_active _ _

theorem raceRecord_startTime (L : ℤ) (z : ℚ) (r : RaceData) :
    (raceRecord L z r).startTime = r.startTime := recordSplits_startTime _ _

theorem raceRecord_totalElapsed (L : ℤ) (z : ℚ) (r : RaceData) :
    (raceRecord L z r).totalElapsed = r.totalElapsed := recordSplits_totalElapsed _ _

theorem raceFlash_finished (dt : ℚ) (r : RaceData) :
    (raceFlash dt r).finished = r.finished := by
  unfold raceFlash; split <;> rfl

theorem raceFlash_active (dt : ℚ) (r : RaceData) :
    (raceFlash dt r).active = r.active := by
  unfold raceFlash; split <;> rfl

theorem raceFlash_startTime (dt : ℚ) (r : RaceData) :
    (raceFlash dt r).startTime = r.startTime := by
  unfold raceFlash; split <;> rfl

theorem raceFlash_totalElapsed (dt : ℚ) (r : RaceData) :
    (raceFlash dt r).totalElapsed = r.totalElapsed := by
  unfold raceFlash; split <;> rfl

theorem raceFlash_kmSplitTimes (dt : ℚ) (r : RaceData) :
    (raceFlash dt r).kmSplitTimes = r.kmSplitTimes := by
  unfold raceFlash; split <;> rfl

theorem raceFlash_lastKmReached (dt : ℚ) (r : RaceData) :
    (raceFlash dt r).lastKmReached = r.lastKmReached := by
  unfold raceFlash; split <;> rfl

theorem raceCrash_finished (gs : GameState) (r : RaceData) :
    (raceCrash gs r).finished = r.finished := by
  unfold raceCrash; split <;> rfl

theorem raceCrash_kmSplitTimes (gs : GameState) (r : RaceData) :
    (raceCrash gs r).kmSplitTimes = r.kmSplitTimes := by
  unfold raceCrash; split <;> rfl

theorem raceElapsed_lastKmReached (t : ℚ) (r : RaceData) :
    (raceElapsed t r).lastKmReached = r.lastKmReached := rfl

theorem raceElapsed_active (t : ℚ) (r : RaceData) :
    (raceElapsed t r).active = r.active := rfl

theorem raceRecord_lastKmReached (L : ℤ) (z : ℚ) (r : RaceData) :
    (raceRecord L z r).lastKmReached =
      r.lastKmReached + (min (kmOf z) L - r.lastKmReached).toNat :=
  recordSplits_lastKmReached _ _

theorem raceRecord_kmSplitTimes (L : ℤ) (z : ℚ) (r : RaceData) :
    (raceRecord L z r).kmSplitTimes = r.kmSplitTimes ++
      List.replicate (min (kmOf z) L - r.lastKmReached).toNat r.totalElapsed :=
  recordSplits_kmSplitTimes _ _

theorem raceCrash_not_crashed (gs : GameState) (r : RaceData)
    (h : gs ≠ GameState.crashed) : raceCrash gs r = r := if_neg h

/-- The km counter is never negative: downwind distance is clamped at 0. -/
theorem kmOf_nonneg (z : ℚ) : 0 ≤ kmOf z := by
  unfold kmOf
  apply Int.le_floor.mpr
  push_cast
  apply div_nonneg _ (by norm_num)
  exact le_max_left 0 _

/-- Reaching km index k is the same as a downwind distance of at least
k * 1000 m. -/
theorem kmOf_le_iff (k : ℤ) (z : ℚ) :
    k ≤ kmOf z ↔ (k : ℚ) * 1000 ≤ downwindDist z := by
  unfold kmOf
  rw [Int.le_floor, le_div_iff₀ (by norm_num : (0 : ℚ) < 1000)]

/-- The largest km index reached over a list of frames (0 when empty). -/
def maxKm (p : List Frame) : ℤ := p.foldl (fun m fr => max m (kmOf fr.z)) 0

/-- The simulation time of the last frame of a run (0 when empty). -/
def lastT (p : List Frame) : ℚ := ((p.getLast?).map Frame.t).getD 0

theorem maxKm_append (p : List Frame) (fr : Frame) :
    maxKm (p ++ [fr]) = max (maxKm p) (kmOf fr.z) := by
  unfold maxKm
  rw [List.foldl_append, List.foldl_cons, List.foldl_nil]

theorem maxKm_nonneg (p : List Frame) : 0 ≤ maxKm p := by
  induction p using List.reverseRecOn with
  | nil => exact le_refl 0
  | append_singleton p fr ih =>
    rw [maxKm_append]
    exact le_max_of_le_left ih

theorem le_maxKm_iff (k : ℤ) (hk : 1 ≤ k) (p : List Frame) :
    k ≤ maxKm p ↔ ∃ fr ∈ p, k ≤ kmOf fr.z := by
  induction p using List.reverseRecOn with
  | nil =>
    simp only [maxKm, List.foldl_nil, List.not_mem_nil]
    constructor
    · intro h; omega
    · rintro ⟨fr, hf, _⟩; exact absurd hf (by simp)
  | append_singleton p fr ih =>
    rw [maxKm_append, le_max_iff, ih]
    constructor
    · rintro (⟨fr', hm, hk'⟩ | hk')
      · exact ⟨fr', by simp [hm], hk'⟩
      · exact ⟨fr, by simp, hk'⟩
    · rintro ⟨fr', hm, hk'⟩
      rcases List.mem_append.mp hm with hm | hm
      · exact Or.inl ⟨fr', hm, hk'⟩
      · rw [List.mem_singleton.mp hm] at hk'
        exact Or.inr hk'

theorem lastT_concat (p : List Frame) (fr : Frame) : lastT (p ++ [fr]) = fr.t := by
  unfold lastT
  rw [List.getLast?_concat]
  rfl

theorem lastT_mem (p : List Frame) (hp : p ≠ []) : ∃ fr ∈ p, lastT p = fr.t := by
  unfold lastT
  cases hq : p.getLast? with
  | none => exact absurd (List.getLast?_eq_none_iff.mp hq) hp
  | some fr => exact ⟨fr, List.mem_of_getLast?_eq_some hq, rfl⟩

theorem raceElapsed_startTime (t : ℚ) (r : RaceData) :
    (raceElapsed t r).startTime = r.startTime := rfl

theorem raceElapsed_totalElapsed (t : ℚ) (r : RaceData) :
    (raceElapsed t r).totalElapsed = t - r.startTime := rfl

/-- Fields of the elapsed/record/flash pipeline that one riding update
runs before the finish check, expressed over the entry race state. -/
theorem pipeline_active (L : ℤ) (dt t z : ℚ) (r : RaceData) :
    (raceFlash dt (raceRecord L z (raceElapsed t r))).active = r.active := by
  rw [raceFlash_active, raceRecord_active, raceElapsed_active]

theorem pipeline_finished (L : ℤ) (dt t z : ℚ) (r : RaceData) :
    (raceFlash dt (raceRecord L z (raceElapsed t r))).finished = r.finished := by
  rw [raceFlash_finished, raceRecord_finished, raceElapsed_finished]

theorem pipeline_startTime (L : ℤ) (dt t z : ℚ) (r : RaceData) :
    (raceFlash dt (raceRecord L z (raceElapsed t r))).startTime = r.startTime := by
  rw [raceFlash_startTime, raceRecord_startTime, raceElapsed_startTime]

theorem pipeline_totalElapsed (L : ℤ) (dt t z : ℚ) (r : RaceData) :
    (raceFlash dt (raceRecord L z (raceElapsed t r))).totalElapsed = t - r.startTime := by
  rw [raceFlash_totalElapsed, raceRecord_totalElapsed, raceElapsed_totalElapsed]

theorem pipeline_kmSplitTimes (L : ℤ) (dt t z : ℚ) (r : RaceData) :
    (raceFlash dt (raceRecord L z (raceElapsed t r))).kmSplitTimes =
      r.kmSplitTimes ++ List.replicate (min (kmOf z) L - r.lastKmReached).toNat
        (t - r.startTime) := by
  rw [raceFlash_kmSplitTimes, raceRecord_kmSplitTimes, raceElapsed_lastKmReached]
  rfl

theorem pipeline_lastKmReached (L : ℤ) (dt t z : ℚ) (r : RaceData) :
    (raceFlash dt (raceRecord L z (raceElapsed t r))).lastKmReached =
      r.lastKmReached + (min (kmOf z) L - r.lastKmReached).toNat := by
  rw [raceFlash_lastKmReached, raceRecord_lastKmReached, raceElapsed_lastKmReached]

/-- A riding update of an active race is the elapsed/record/flash
pipeline followed by the finish check; neither the auto-start nor the
crash abandon fires. -/
theorem updateRace_riding_active (L : ℤ) (dt t z : ℚ) (r : RaceData)
    (hact : r.active = true) :
    updateRace L dt t z GameState.riding r =
      raceFinish L t z (raceFlash dt (raceRecord L z (raceElapsed t r))) := by
  simp only [updateRace]
  rw [if_neg (by simp [hact]), if_neg (by simp [hact]),
    raceCrash_not_crashed _ _ (by decide)]

/-- A riding update of the reset race state auto-starts the race and then
runs the same pipeline on the fresh startRace state. -/
theorem updateRace_riding_start (L : ℤ) (dt t z : ℚ) :
    updateRace L dt t z GameState.riding raceInit =
      raceFinish L t z (raceFlash dt (raceRecord L z (raceElapsed t (startRace t)))) := by
  simp only [updateRace]
  rw [if_neg (by simp [raceInit, startRace]), if_pos (by simp [raceInit]),
    raceCrash_not_crashed _ _ (by decide)]

/-- A finished race is frozen: the auto-start is blocked by the finished
flag and the inactive early return leaves the state untouched. -/
theorem updateRace_frozen (L : ℤ) (dt t z : ℚ) (gs : GameState) (r : RaceData)
    (hact : r.active = false) (hfin : r.finished = true) :
    updateRace L dt t z gs r = r := by
  simp only [updateRace]
  have hc1 : ¬(gs = GameState.riding ∧ r.active = false ∧ r.finished = false) := by
    simp [hfin]
  rw [if_neg hc1, if_pos hact]

theorem raceFinish_pos (L : ℤ) (t z : ℚ) (r : RaceData)
    (h : (L : ℚ) * 1000 ≤ downwindDist z) :
    raceFinish L t z r = { r with
      finished := true
      active := false
      totalElapsed := t - r.startTime
      splitFlashTimer := 0
      kmSplitTimes := r.kmSplitTimes ++
        List.replicate (L.toNat - r.kmSplitTimes.length) (t - r.startTime) } := by
  unfold raceFinish
  rw [if_pos h]

theorem raceFinish_neg (L : ℤ) (t z : ℚ) (r : RaceData)
    (h : ¬((L : ℚ) * 1000 ≤ downwindDist z)) :
    raceFinish L t z r = r := by
  unfold raceFinish
  rw [if_neg h]

/-- One riding update of an active, unfinished race whose split list is
consistent (sorted, bounded by the elapsed time, and counting exactly
lastKmReached entries): if the course distance is reached the race ends
with exactly L sorted splits; otherwise it stays active with
lastKmReached advanced to max(lastKmReached, kmReached) and exactly that
many sorted splits, each bounded by the new elapsed time. -/
theorem updateRace_inv_step (L : ℤ) (hL : 1 ≤ L) (dt t z : ℚ) (r : RaceData)
    (hact : r.active = true)
    (hsort : List.Pairwise (· ≤ ·) r.kmSplitTimes)
    (hbound : ∀ x ∈ r.kmSplitTimes, x ≤ t - r.startTime)
    (hKnn : 0 ≤ r.lastKmReached) (hKlt : r.lastKmReached < L)
    (hlen : r.kmSplitTimes.length = r.lastKmReached.toNat) :
    let u := updateRace L dt t z GameState.riding r
    ((L : ℚ) * 1000 ≤ downwindDist z →
      u.active = false ∧ u.finished = true ∧
      List.Pairwise (· ≤ ·) u.kmSplitTimes ∧
      u.kmSplitTimes.length = L.toNat) ∧
    (¬((L : ℚ) * 1000 ≤ downwindDist z) →
      u.active = true ∧ u.finished = r.finished ∧
      List.Pairwise (· ≤ ·) u.kmSplitTimes ∧
      (∀ x ∈ u.kmSplitTimes, x ≤ u.totalElapsed) ∧
      u.totalElapsed = t - u.startTime ∧
      u.startTime = r.startTime ∧
      u.lastKmReached = max r.lastKmReached (kmOf z) ∧
      u.kmSplitTimes.length = u.lastKmReached.toNat) := by
  dsimp only
  rw [updateRace_riding_active L dt t z r hact]
  have hrep : List.Pairwise (fun x1 x2 => x1 ≤ x2)
      (List.replicate (min (kmOf z) L - r.lastKmReached).toNat (t - r.startTime)) :=
    List.pairwise_replicate.mpr (Or.inr le_rfl)
  have hsortw : List.Pairwise (fun x1 x2 => x1 ≤ x2)
      (r.kmSplitTimes ++ List.replicate (min (kmOf z) L - r.lastKmReached).toNat
        (t - r.startTime)) := by
    refine List.pairwise_append.mpr ⟨hsort, hrep, ?_⟩
    intro a ha b hb
    rw [List.eq_of_mem_replicate hb]
    exact hbound a ha
  have hmemw : ∀ x ∈ r.kmSplitTimes ++
      List.replicate (min (kmOf z) L - r.lastKmReached).toNat (t - r.startTime),
      x ≤ t - r.startTime := by
    intro x hx
    rcases List.mem_append.mp hx with hx | hx
    · exact hbound x hx
    · rw [List.eq_of_mem_replicate hx]
  constructor
  · intro hz
    rw [raceFinish_pos _ _ _ _ hz]
    have hLk : L ≤ kmOf z := (kmOf_le_iff L z).mpr hz
    refine ⟨rfl, rfl, ?_, ?_⟩
    · show List.Pairwise _
        ((raceFlash dt (raceRecord L z (raceElapsed t r))).kmSplitTimes ++
          List.replicate (L.toNat -
            (raceFlash dt (raceRecord L z (raceElapsed t r))).kmSplitTimes.length)
            (t - (raceFlash dt (raceRecord L z (raceElapsed t r))).startTime))
      rw [pipeline_kmSplitTimes, pipeline_startTime]
      refine List.pairwise_append.mpr ⟨hsortw, ?_, ?_⟩
      · exact List.pairwise_replicate.mpr (Or.inr le_rfl)
      · intro a ha b hb
        rw [List.eq_of_mem_replicate hb]
        exact hmemw a ha
    · show ((raceFlash dt (raceRecord L z (raceElapsed t r))).kmSplitTimes ++
          List.replicate (L.toNat -
            (raceFlash dt (raceRecord L z (raceElapsed t r))).kmSplitTimes.length)
            (t - (raceFlash dt (raceRecord L z (raceElapsed t r))).startTime)).length =
          L.toNat
      rw [pipeline_kmSplitTimes, pipeline_startTime, List.length_append,
        List.length_append, List.length_replicate, List.length_replicate, hlen]
      omega
  · intro hz
    rw [raceFinish_neg _ _ _ _ hz]
    have hKm : kmOf z < L := by
      by_contra hcon
      push_neg at hcon
      exact hz ((kmOf_le_iff L z).mp hcon)
    refine ⟨?_, ?_, ?_, ?_, ?_, ?_, ?_, ?_⟩
    · rw [pipeline_active, hact]
    · rw [pipeline_finished]
    · rw [pipeline_kmSplitTimes]
      exact hsortw
    · intro x hx
      rw [pipeline_kmSplitTimes] at hx
      rw [pipeline_totalElapsed]
      exact hmemw x hx
    · rw [pipeline_totalElapsed, pipeline_startTime]
    · exact pipeline_startTime L dt t z r
    · rw [pipeline_lastKmReached]
      omega
    · rw [pipeline_kmSplitTimes, pipeline_lastKmReached, List.length_append,
        List.length_replicate, hlen]
      omega

/-- Invariant of the race tracker along a riding-only run: either nothing
has happened yet, or the race is active with a sorted split list that is
bounded by the current elapsed time and counts exactly lastKmReached =
min-free maxKm entries, or the race finished with exactly L sorted splits
after some frame reached the course distance. -/
def RaceInv (L : ℤ) (p : List Frame) (r : RaceData) : Prop :=
  (p = [] ∧ r = raceInit) ∨
  (p ≠ [] ∧ r.active = true ∧ r.finished = false ∧
    List.Pairwise (· ≤ ·) r.kmSplitTimes ∧
    (∀ x ∈ r.kmSplitTimes, x ≤ r.totalElapsed) ∧
    r.totalElapsed = lastT p - r.startTime ∧
    r.lastKmReached = maxKm p ∧
    maxKm p < L ∧
    r.kmSplitTimes.length = (maxKm p).toNat) ∨
  (r.active = false ∧ r.finished = true ∧
    List.Pairwise (· ≤ ·) r.kmSplitTimes ∧
    r.kmSplitTimes.length = L.toNat ∧
    (∃ fr ∈ p, (L : ℚ) * 1000 ≤ downwindDist fr.z))

theorem raceRun_concat (L : ℤ) (p : List Frame) (fr : Frame) :
    raceRun L (p ++ [fr]) = updateRace L fr.dt fr.t fr.z fr.gs (raceRun L p) := by
  unfold raceRun
  rw [List.foldl_append, List.foldl_cons, List.foldl_nil]

/-- The race invariant holds after any riding-only run with
non-decreasing frame times. -/
theorem raceRun_inv (L : ℤ) (hL : 1 ≤ L) (frames : List Frame)
    (hg : ∀ fr ∈ frames, fr.gs = GameState.riding)
    (hmono : (frames.map Frame.t).Pairwise (· ≤ ·)) :
    RaceInv L frames (raceRun L frames) := by
  induction frames using List.reverseRecOn with
  | nil => exact Or.inl ⟨rfl, rfl⟩
  | append_singleton p fr ih =>
    have hgp : ∀ x ∈ p, x.gs = GameState.riding :=
      fun x hx => hg x (List.mem_append_left _ hx)
    have hmap : (p ++ [fr]).map Frame.t = p.map Frame.t ++ [fr.t] := by
      rw [List.map_append]
      rfl
    have hmono' : (p.map Frame.t ++ [fr.t]).Pairwise (· ≤ ·) := hmap ▸ hmono
    have hmp : (p.map Frame.t).Pairwise (· ≤ ·) :=
      List.Pairwise.sublist (List.sublist_append_left _ _) hmono'
    have htle : ∀ x ∈ p, x.t ≤ fr.t := by
      intro x hx
      exact (List.pairwise_append.mp hmono').2.2 x.t (List.mem_map.mpr ⟨x, hx, rfl⟩)
        fr.t (List.mem_singleton_self _)
    have hfr : fr.gs = GameState.riding :=
      hg fr (List.mem_append_right _ (List.mem_singleton_self _))
    rw [raceRun_concat, hfr]
    have hKmiff := kmOf_le_iff L fr.z
    rcases ih hgp hmp with ⟨hpnil, hrinit⟩ |
        ⟨hpne, hact, hfin, hsort, hbnd, helap, hlkm, hklt, hlen⟩ |
        ⟨hact, hfin, hsort, hlen, hex⟩
    · -- First riding frame: the race auto-starts.
      rw [hrinit]
      subst hpnil
      have hs : updateRace L fr.dt fr.t fr.z GameState.riding raceInit =
          updateRace L fr.dt fr.t fr.z GameState.riding (startRace fr.t) := by
        rw [updateRace_riding_start, updateRace_riding_active _ _ _ _ _ rfl]
      rw [hs]
      have hstep := updateRace_inv_step L hL fr.dt fr.t fr.z (startRace fr.t) rfl
        List.Pairwise.nil (fun x hx => absurd hx (List.not_mem_nil x))
        (le_refl 0) (show (0 : ℤ) < L from by omega) rfl
      dsimp only at hstep
      by_cases hz : (L : ℚ) * 1000 ≤ downwindDist fr.z
      · obtain ⟨h1, h2, h3, h4⟩ := hstep.1 hz
        exact Or.inr (Or.inr ⟨h1, h2, h3, h4,
          ⟨fr, List.mem_append_right _ (List.mem_singleton_self _), hz⟩⟩)
      · obtain ⟨h1, h2, h3, h4, h5, h6, h7, h8⟩ := hstep.2 hz
        have hKm : kmOf fr.z < L := by
          by_contra hcon
          push_neg at hcon
          exact hz (hKmiff.mp hcon)
        have h0 : maxKm ([] : List Frame) = 0 := rfl
        have hsr : (startRace fr.t).lastKmReached = 0 := rfl
        rw [hsr] at h7
        refine Or.inr (Or.inl ⟨by simp, h1, h2, h3, h4, ?_, ?_, ?_, ?_⟩)
        · rw [lastT_concat]
          exact h5
        · rw [maxKm_append, h0]
          exact h7
        · rw [maxKm_append, h0]
          omega
        · rw [h8, h7, maxKm_append, h0]
    · -- Active race: one more riding frame.
      have hbound : ∀ x ∈ (raceRun L p).kmSplitTimes,
          x ≤ fr.t - (raceRun L p).startTime := by
        intro x hx
        obtain ⟨fl, hfl, hlt⟩ := lastT_mem p hpne
        have h1 : x ≤ lastT p - (raceRun L p).startTime := helap ▸ hbnd x hx
        have h2 : lastT p ≤ fr.t := hlt ▸ htle fl hfl
        linarith
      have hstep := updateRace_inv_step L hL fr.dt fr.t fr.z (raceRun L p) hact hsort
        hbound (hlkm ▸ maxKm_nonneg p) (hlkm ▸ hklt) (hlkm ▸ hlen)
      dsimp only at hstep
      by_cases hz : (L : ℚ) * 1000 ≤ downwindDist fr.z
      · obtain ⟨h1, h2, h3, h4⟩ := hstep.1 hz
        exact Or.inr (Or.inr ⟨h1, h2, h3, h4,
          ⟨fr, List.mem_append_right _ (List.mem_singleton_self _), hz⟩⟩)
      · obtain ⟨h1, h2, h3, h4, h5, h6, h7, h8⟩ := hstep.2 hz
        have hKm : kmOf fr.z < L := by
          by_contra hcon
          push_neg at hcon
          exact hz (hKmiff.mp hcon)
        rw [hlkm] at h7
        refine Or.inr (Or.inl ⟨by simp, h1, h2.trans hfin, h3, h4, ?_, ?_, ?_, ?_⟩)
        · rw [lastT_concat]
          exact h5
        · rw [maxKm_append]
          exact h7
        · rw [maxKm_append]
          omega
        · rw [h8, h7, maxKm_append]
    · -- Finished race: frozen.
      rw [updateRace_frozen _ _ _ _ _ _ hact hfin]
      exact Or.inr (Or.inr ⟨hact, hfin, hsort, hlen,
        hex.imp fun fr' h' => ⟨List.mem_append_left _ h'.1, h'.2⟩⟩)

/-- C5: under monotonically non-decreasing simulation time (riding-only
frames), after any number n of race updates the split list kmSplitTimes
is non-decreasing and holds at most L entries, and for each km index k
in [1, L] the split for km k has been recorded (the list holds at least
k entries) exactly when some processed frame already had
downwindDistance ≥ k·1000 m — so each split appears exactly once, at the
first update whose downwind distance reaches k·1000 m, with any km
indexes still unrecorded at the finish backfilled with the final elapsed
time in the same update that reaches the course distance. -/
theorem raceRun_splits_spec (L : ℤ) (hL : 1 ≤ L) (frames : List Frame)
    (hg : ∀ fr ∈ frames, fr.gs = GameState.riding)
    (hmono : (frames.map Frame.t).Pairwise (· ≤ ·)) (n : ℕ) :
    List.Pairwise (· ≤ ·) (raceRun L (frames.take n)).kmSplitTimes ∧
    (raceRun L (frames.take n)).kmSplitTimes.length ≤ L.toNat ∧
    ∀ k : ℤ, 1 ≤ k → k ≤ L →
      (k.toNat ≤ (raceRun L (frames.take n)).kmSplitTimes.length ↔
        ∃ fr ∈ frames.take n, (k : ℚ) * 1000 ≤ downwindDist fr.z) := by
  have hgt : ∀ fr ∈ frames.take n, fr.gs = GameState.riding :=
    fun fr hfr => hg fr (List.mem_of_mem_take hfr)
  have hmt : ((frames.take n).map Frame.t).Pairwise (· ≤ ·) := by
    rw [List.map_take]
    exact List.Pairwise.sublist (List.take_sublist n _) hmono
  have hinv := raceRun_inv L hL (frames.take n) hgt hmt
  rcases hinv with ⟨hpnil, hrinit⟩ |
      ⟨hpne, hact, hfin, hsort, hbnd, helap, hlkm, hklt, hlen⟩ |
      ⟨hact, hfin, hsort, hlen, hex⟩
  · rw [hrinit]
    refine ⟨List.Pairwise.nil, Nat.zero_le _, ?_⟩
    intro k hk1 hkL
    rw [hpnil]
    constructor
    · intro hle
      exfalso
      have h0 : raceInit.kmSplitTimes.length = 0 := rfl
      omega
    · rintro ⟨fr, hfr, _⟩
      exact absurd hfr (List.not_mem_nil fr)
  · have hnn := maxKm_nonneg (frames.take n)
    refine ⟨hsort, by rw [hlen]; omega, ?_⟩
    intro k hk1 hkL
    have hiff := le_maxKm_iff k hk1 (frames.take n)
    rw [hlen]
    constructor
    · intro hle
      obtain ⟨fr, hfr, hkk⟩ := hiff.mp (by omega)
      exact ⟨fr, hfr, (kmOf_le_iff k fr.z).mp hkk⟩
    · rintro ⟨fr, hfr, hq⟩
      have hkk : k ≤ maxKm (frames.take n) :=
        hiff.mpr ⟨fr, hfr, (kmOf_le_iff k fr.z).mpr hq⟩
      omega
  · refine ⟨hsort, le_of_eq hlen, ?_⟩
    intro k hk1 hkL
    rw [hlen]
    constructor
    · intro _
      obtain ⟨fr, hfr, hq⟩ := hex
      refine ⟨fr, hfr, le_trans ?_ hq⟩
      have hcast : (k : ℚ) ≤ (L : ℚ) := by exact_mod_cast hkL
      nlinarith
    · intro _
      omega

/-- Witness for C5: a concrete two-frame riding run (start at spawn, then
cross the 1 km course) with sorted splits, at most one split, and the
km-1 split recorded exactly when the crossing frame has been processed. -/
theorem raceRun_splits_spec_witness :
    List.Pairwise (· ≤ ·) (raceRun 1 (([⟨1/60, 0, -800, GameState.riding⟩,
        ⟨1/60, 95, 300, GameState.riding⟩] : List Frame).take 2)).kmSplitTimes ∧
    (raceRun 1 (([⟨1/60, 0, -800, GameState.riding⟩,
        ⟨1/60, 95, 300, GameState.riding⟩] : List Frame).take 2)).kmSplitTimes.length ≤
      (1 : ℤ).toNat ∧
    ((1 : ℤ).toNat ≤ (raceRun 1 (([⟨1/60, 0, -800, GameState.riding⟩,
        ⟨1/60, 95, 300, GameState.riding⟩] : List Frame).take 2)).kmSplitTimes.length ↔
      ∃ fr ∈ ([⟨1/60, 0, -800, GameState.riding⟩,
          ⟨1/60, 95, 300, GameState.riding⟩] : List Frame).take 2,
        ((1 : ℤ) : ℚ) * 1000 ≤ downwindDist fr.z) := by
  have h := raceRun_splits_spec 1 (le_refl 1)
    ([⟨1/60, 0, -800, GameState.riding⟩, ⟨1/60, 95, 300, GameState.riding⟩] : List Frame)
    (by intro fr hfr
        rcases List.mem_cons.mp hfr with h1 | hfr2
        · rw [h1]
        · rcases List.mem_cons.mp hfr2 with h1 | h1
          · rw [h1]
          · exact absurd h1 (List.not_mem_nil fr))
    (by norm_num [List.pairwise_cons])
    2
  exact ⟨h.1, h.2.1, h.2.2 1 (le_refl 1) (le_refl 1)⟩

/-- An active race (started at time 0, no splits yet), used to exhibit
the crash/finish interaction of updateRace. -/
def raceActiveC6 : RaceData := ⟨true, false, 0, [], 0, 0, 0⟩

/-- C6 counterexample: the claim says a crash while the race is active
leaves finished false, but the finish check runs before the crash check
inside the same updateRace call, so a crash arriving on the update that
also reaches the course distance (here z = 300, downwind 1100 m ≥ 1000 m
with course length 1 km) produces finished = true. -/
theorem updateRace_crash_counterexample :
    raceActiveC6.active = true ∧
    (updateRace RACE_LENGTH_KM (1 / 60) 50 300 GameState.crashed
      raceActiveC6).active = false ∧
    (updateRace RACE_LENGTH_KM (1 / 60) 50 300 GameState.crashed
      raceActiveC6).finished = true := by
  refine ⟨rfl, ?_, ?_⟩ <;>
    norm_num [updateRace, raceElapsed, raceRecord, raceFlash, raceFinish, raceCrash,
      recordSplits, pushSplit, kmOf, downwindDist, RACE_START_Z, RACE_LENGTH_KM,
      raceActiveC6, startRace]

/-- C6 amended: if GameState is crashed while the race is active, the
race update sets active to false; finished stays false unless the same
update also reaches the course distance (finished becomes true exactly
when it already was true or downwindDistance ≥ L·1000 m on this update),
so a finished race is still only produced by reaching the course
distance. -/
theorem updateRace_crash_abandons (L : ℤ) (dt t z : ℚ) (r : RaceData)
    (h : r.active = true) :
    (updateRace L dt t z GameState.crashed r).active = false ∧
    ((updateRace L dt t z GameState.crashed r).finished = true ↔
      (r.finished = true ∨ (L : ℚ) * 1000 ≤ downwindDist z)) := by
  have hns : ¬(GameState.crashed = GameState.riding ∧ r.active = false ∧
      r.finished = false) := fun hcon => by cases hcon.1
  have hact : ¬(r.active = false) := by rw [h]; exact fun hcon => by cases hcon
  simp only [updateRace]
  rw [if_neg hns, if_neg hact]
  constructor
  · show (raceCrash GameState.crashed _).active = false
    unfold raceCrash
    rw [if_pos rfl]
  · rw [raceCrash_finished]
    unfold raceFinish
    by_cases hfin : (L : ℚ) * 1000 ≤ downwindDist z
    · rw [if_pos hfin]
      simp [hfin]
    · rw [if_neg hfin]
      rw [raceFlash_finished, raceRecord_finished, raceElapsed_finished]
      simp [hfin]

/-- Witness for the amended C6: a concrete crash while active and short
of the course distance abandons the race with finished still false. -/
theorem updateRace_crash_abandons_witness :
    (updateRace RACE_LENGTH_KM (1 / 60) 50 (-300) GameState.crashed
      raceActiveC6).active = false ∧
    ((updateRace RACE_LENGTH_KM (1 / 60) 50 (-300) GameState.crashed
      raceActiveC6).finished = true ↔
      (raceActiveC6.finished = true ∨
        (RACE_LENGTH_KM : ℚ) * 1000 ≤ downwindDist (-300))) :=
  updateRace_crash_abandons RACE_LENGTH_KM (1 / 60) 50 (-300) raceActiveC6 rfl

end DW
